import Mathlib

/-
Shallow embedding of the two reconcilers of this repository:
`MyResourceReconciler` (controllers package, the scaffold with finalizers,
status conditions and requeue policy) and `GuestbookReconciler`
(internal/controller/guestbook_controller.go). Durations are modelled in
seconds (`5 * time.Minute` becomes `5 * 60`). The store client is modelled
as explicit state passing over the persisted resource record, with
per-invocation fault injection for the fallible client calls.
-/

namespace KubeOperator

/-- A status condition, mirroring `metav1.Condition` as the controllers use it:
`Type`, `Status` (the string `"True"`, `"False"` or `"Unknown"`), `Reason`,
`Message` and `ObservedGeneration`. `LastTransitionTime` is omitted: the
library fills it from the wall clock (`time.Now()`) and no code in the
repository ever reads it. -/
structure Condition where
  condType : String
  status : String
  reason : String
  message : String
  observedGeneration : Nat
  deriving DecidableEq, Repr

/-- `meta.FindStatusCondition`: return the first condition whose `Type` matches,
if any. -/
def findStatusCondition (conditions : List Condition) (conditionType : String) :
    Option Condition :=
  conditions.find? (fun c => c.condType == conditionType)

/-- `meta.SetStatusCondition`: if no condition of the new condition's type is
present, append the new condition at the end; otherwise overwrite the fields
of the first condition of that type in place (position preserved). -/
def setStatusCondition : List Condition → Condition → List Condition
  | [], newCondition => [newCondition]
  | c :: rest, newCondition =>
    if c.condType == newCondition.condType then
      { c with
        status := newCondition.status
        reason := newCondition.reason
        message := newCondition.message
        observedGeneration := newCondition.observedGeneration } :: rest
    else
      c :: setStatusCondition rest newCondition

/-- `controllerutil.ContainsFinalizer` on the object's finalizer list. -/
def containsFinalizer (finalizers : List String) (finalizer : String) : Bool :=
  finalizers.contains finalizer

/-- `controllerutil.AddFinalizer` on the object's finalizer list: append the
finalizer unless it is already present. -/
def addFinalizer (finalizers : List String) (finalizer : String) : List String :=
  if finalizers.contains finalizer then finalizers else finalizers ++ [finalizer]

/-- `controllerutil.RemoveFinalizer` on the object's finalizer list: drop every
occurrence of the finalizer. -/
def removeFinalizer (finalizers : List String) (finalizer : String) : List String :=
  finalizers.filter (fun e => e != finalizer)

/-- `myFinalizerName` from the controllers package. -/
def myFinalizerName : String := "myresource.example.com/finalizer"

/-- Condition type `TypeReady`. -/
def TypeReady : String := "Ready"

/-- Condition type `TypeDegraded`. -/
def TypeDegraded : String := "Degraded"

/-- Status of a `MyResource`: the condition list and `ObservedGeneration`. -/
structure MyResourceStatus where
  conditions : List Condition
  observedGeneration : Nat
  deriving DecidableEq, Repr

/-- The `MyResource` custom resource: identity metadata (generation,
deletion timestamp, finalizer list), the user-supplied spec and the status.
The `api/v1` types file is not in the repository snapshot; the spec is
modelled as an opaque numeric payload, which the reconciler never inspects. -/
structure MyResource where
  generation : Nat
  deletionTimestamp : Option Nat
  finalizers : List String
  spec : Nat
  status : MyResourceStatus
  deriving DecidableEq, Repr

/-- The persisted state of the resource store for the one resource key named by
the reconcile request: `none` means the record has been physically deleted. -/
structure Store where
  resource : Option MyResource
  deriving DecidableEq, Repr

/-- An error returned by a client call, as the reconciler distinguishes them:
`notFound` (matched by `apierrors.IsNotFound` / `client.IgnoreNotFound`) and
everything else. -/
inductive GoErr where
  | notFound
  | other
  deriving DecidableEq, Repr

/-- Outcomes of the environment during one reconcile invocation.
`getFault`, `updateFault` and `statusFault` inject a non-not-found failure
into `r.Get`, `r.Update` and `r.Status().Update` respectively.
`cleanupFails` — modelled from the spec: the cleanup of externally-owned
resources is a TODO in `reconcileDelete`; the commented-out scaffold (and the
spec) return the cleanup error without removing the finalizer when it fails.
`isReady` — modelled from the spec: the readiness check in `reconcileNormal`
is the stub `isReady := true // TODO`; it is taken as an input so that both
branches of the source are statable. -/
structure Env where
  getFault : Bool
  updateFault : Bool
  statusFault : Bool
  cleanupFails : Bool
  isReady : Bool
  deriving DecidableEq, Repr

/-- A side effect of one invocation observed by the outside world: a successful
write through the spec/metadata path (`r.Update`), a successful write through
the status path (`r.Status().Update`), or an event recorded via
`r.Recorder.Event` (event type, reason, message). -/
inductive Effect where
  | specWrite (r : MyResource)
  | statusWrite (r : MyResource)
  | event (etype : String) (reason : String) (message : String)
  deriving DecidableEq, Repr

/-- `ctrl.Result`: immediate-requeue flag and requeue-after delay in seconds. -/
structure Result where
  requeue : Bool
  requeueAfter : Nat
  deriving DecidableEq, Repr

/-- The zero `ctrl.Result{}`. -/
def Result.empty : Result := { requeue := false, requeueAfter := 0 }

/-- The complete outcome of one reconcile invocation: the store afterwards, the
observed side effects in order, and the returned `(ctrl.Result, error)`. -/
structure RecOut where
  store : Store
  effects : List Effect
  result : Result
  err : Option GoErr
  deriving DecidableEq, Repr

/-- The store's handling of `r.Update`: with the status subresource enabled,
the main update path persists metadata and spec and leaves the stored status
untouched. -/
def Store.applyUpdate (s : Store) (r : MyResource) : Store :=
  { resource := s.resource.map (fun cur => { r with status := cur.status }) }

/-- The store's handling of `r.Status().Update`: the status path persists only
the status and leaves stored metadata and spec untouched. -/
def Store.applyStatusUpdate (s : Store) (r : MyResource) : Store :=
  { resource := s.resource.map (fun cur => { cur with status := r.status }) }

namespace MyResourceReconciler

/-- `updateStatus`: set the condition on the resource's condition list, set
`Status.ObservedGeneration` to the resource's current generation, and persist
through `r.Status().Update`. Returns the written object and the new store, or
the wrapped error when the status write fails. -/
def updateStatus (env : Env) (s : Store) (resource : MyResource)
    (condition : Condition) : Except GoErr (Store × MyResource) :=
  let resource' : MyResource :=
    { resource with
      status :=
        { conditions := setStatusCondition resource.status.conditions condition
          observedGeneration := resource.generation } }
  if env.statusFault then
    Except.error GoErr.other
  else
    Except.ok (s.applyStatusUpdate resource', resource')

/-- `reconcileNormal`: record `Ready=True` and requeue after 5 minutes when the
readiness check passes, otherwise record `Degraded=True` (reason `NotReady`)
and requeue after 30 seconds; a failed status write is returned as the error
with an empty result. -/
def reconcileNormal (env : Env) (s : Store) (resource : MyResource) : RecOut :=
  let isReady := env.isReady
  if isReady then
    let condition : Condition :=
      { condType := TypeReady
        status := "True"
        reason := "ReconciliationSucceeded"
        message := "Resource reconciled successfully"
        observedGeneration := resource.generation }
    match updateStatus env s resource condition with
    | Except.error e =>
      { store := s, effects := [], result := Result.empty, err := some e }
    | Except.ok (s', resource') =>
      { store := s'
        effects := [Effect.statusWrite resource',
                    Effect.event "Normal" "Ready" "Resource is ready"]
        result := { requeue := false, requeueAfter := 5 * 60 }
        err := none }
  else
    let condition : Condition :=
      { condType := TypeDegraded
        status := "True"
        reason := "NotReady"
        message := "Resource is not ready"
        observedGeneration := resource.generation }
    match updateStatus env s resource condition with
    | Except.error e =>
      { store := s, effects := [], result := Result.empty, err := some e }
    | Except.ok (s', resource') =>
      { store := s'
        effects := [Effect.statusWrite resource',
                    Effect.event "Warning" "NotReady" "Resource is not ready"]
        result := { requeue := false, requeueAfter := 30 }
        err := none }

/-- `reconcileDelete`: when the finalizer is present, run cleanup (modelled from
the spec, see `Env.cleanupFails`); on cleanup failure return the error without
touching the resource; on success remove the finalizer, persist via
`r.Update`, and record the `Deleted` event. Without the finalizer, nothing is
owed and the call succeeds with an empty result. -/
def reconcileDelete (env : Env) (s : Store) (resource : MyResource) : RecOut :=
  if containsFinalizer resource.finalizers myFinalizerName then
    if env.cleanupFails then
      { store := s, effects := [], result := Result.empty, err := some GoErr.other }
    else
      let resource' : MyResource :=
        { resource with
          finalizers := removeFinalizer resource.finalizers myFinalizerName }
      if env.updateFault then
        { store := s, effects := [], result := Result.empty, err := some GoErr.other }
      else
        { store := s.applyUpdate resource'
          effects := [Effect.specWrite resource',
                      Effect.event "Normal" "Deleted" "Resource cleanup completed"]
          result := Result.empty
          err := none }
  else
    { store := s, effects := [], result := Result.empty, err := none }

/-- `MyResourceReconciler.Reconcile`: fetch the resource (not-found is treated
as already-deleted success, any other fetch error is returned); branch to
`reconcileDelete` when the deletion timestamp is set; attach the finalizer,
persist and requeue immediately when it is absent; otherwise run
`reconcileNormal`. -/
def Reconcile (env : Env) (s : Store) : RecOut :=
  if env.getFault then
    { store := s, effects := [], result := Result.empty, err := some GoErr.other }
  else
    match s.resource with
    | none =>
      { store := s, effects := [], result := Result.empty, err := none }
    | some resource =>
      if resource.deletionTimestamp.isSome then
        reconcileDelete env s resource
      else if !(containsFinalizer resource.finalizers myFinalizerName) then
        let resource' : MyResource :=
          { resource with
            finalizers := addFinalizer resource.finalizers myFinalizerName }
        if env.updateFault then
          { store := s, effects := [], result := Result.empty, err := some GoErr.other }
        else
          { store := s.applyUpdate resource'
            effects := [Effect.specWrite resource']
            result := { requeue := true, requeueAfter := 0 }
            err := none }
      else
        reconcileNormal env s resource

end MyResourceReconciler

/-- Status of a `Guestbook`: its condition list. -/
structure GuestbookStatus where
  conditions : List Condition
  deriving DecidableEq, Repr

/-- The `Guestbook` resource: generation, finalizer list, an opaque spec
payload (the `api/v1` types file is not in the repository snapshot and the
controller never inspects the spec), and the status. -/
structure Guestbook where
  generation : Nat
  finalizers : List String
  spec : Nat
  status : GuestbookStatus
  deriving DecidableEq, Repr

/-- The persisted state of the store for the one guestbook key. -/
structure GStore where
  resource : Option Guestbook
  deriving DecidableEq, Repr

/-- Fault injection for one guestbook reconcile invocation: a non-not-found
`r.Get` failure and a `r.Status().Update` failure. -/
structure GEnv where
  getFault : Bool
  statusFault : Bool
  deriving DecidableEq, Repr

/-- A side effect of one guestbook invocation: a successful status-path write. -/
inductive GEffect where
  | statusWrite (g : Guestbook)
  deriving DecidableEq, Repr

/-- The complete outcome of one guestbook reconcile invocation. -/
structure GRecOut where
  store : GStore
  effects : List GEffect
  result : Result
  err : Option GoErr
  deriving DecidableEq, Repr

namespace GuestbookReconciler

/-- `GuestbookReconciler.Reconcile`: fetch the guestbook (errors filtered
through `client.IgnoreNotFound`); when the `Available` condition is missing,
stale (`ObservedGeneration` differs from the generation) or not `True`, set
`Available=True` (reason `Reconciled`) and persist through the status path;
always return an empty result. -/
def Reconcile (env : GEnv) (s : GStore) : GRecOut :=
  if env.getFault then
    { store := s, effects := [], result := Result.empty, err := some GoErr.other }
  else
    match s.resource with
    | none =>
      { store := s, effects := [], result := Result.empty, err := none }
    | some guestbook =>
      let available := findStatusCondition guestbook.status.conditions "Available"
      let needsUpdate : Bool :=
        match available with
        | none => true
        | some c => c.observedGeneration != guestbook.generation || c.status != "True"
      if needsUpdate then
        let cond : Condition :=
          { condType := "Available"
            status := "True"
            reason := "Reconciled"
            message := "Guestbook spec reconciled"
            observedGeneration := guestbook.generation }
        let guestbook' : Guestbook :=
          { guestbook with
            status :=
              { conditions := setStatusCondition guestbook.status.conditions cond } }
        if env.statusFault then
          { store := s, effects := [], result := Result.empty, err := some GoErr.other }
        else
          { store := { resource := s.resource.map (fun cur => { cur with status := guestbook'.status }) }
            effects := [GEffect.statusWrite guestbook']
            result := Result.empty
            err := none }
      else
        { store := s, effects := [], result := Result.empty, err := none }

end GuestbookReconciler

/-- Concrete sample: an empty `MyResource` status. -/
def emptyStatus : MyResourceStatus := { conditions := [], observedGeneration := 0 }

/-- Concrete sample: a freshly created resource (no finalizer, not deleting). -/
def freshResource : MyResource :=
  { generation := 1, deletionTimestamp := none, finalizers := [], spec := 3
    status := emptyStatus }

/-- Concrete sample: a resource in steady state (finalizer present, not
deleting). -/
def steadyResource : MyResource :=
  { generation := 1, deletionTimestamp := none, finalizers := [myFinalizerName]
    spec := 3, status := emptyStatus }

/-- Concrete sample: a resource being deleted while carrying the finalizer. -/
def deletingResource : MyResource :=
  { generation := 1, deletionTimestamp := some 5, finalizers := [myFinalizerName]
    spec := 3, status := emptyStatus }

/-- Concrete sample: the store holding `steadyResource`. -/
def steadyStore : Store := { resource := some steadyResource }

/-- Concrete sample: the store holding `freshResource`. -/
def freshStore : Store := { resource := some freshResource }

/-- Concrete sample: the store holding `deletingResource`. -/
def deletingStore : Store := { resource := some deletingResource }

/-- Concrete sample: a fault-free environment in which the readiness check
passes (the literal value of the source stub). -/
def envOk : Env :=
  { getFault := false, updateFault := false, statusFault := false
    cleanupFails := false, isReady := true }

/-- Concrete sample: a fault-free environment in which the readiness check
fails. -/
def envNotReady : Env :=
  { getFault := false, updateFault := false, statusFault := false
    cleanupFails := false, isReady := false }

/-- Concrete sample: an environment in which cleanup fails. -/
def envCleanupFail : Env :=
  { getFault := false, updateFault := false, statusFault := false
    cleanupFails := true, isReady := true }

/-- Concrete sample: a guestbook with no conditions and no finalizers. -/
def plainGuestbook : Guestbook :=
  { generation := 1, finalizers := [], spec := 3, status := { conditions := [] } }

/-- Concrete sample: the store holding `plainGuestbook`. -/
def plainGStore : GStore := { resource := some plainGuestbook }

/-- Concrete sample: a fault-free guestbook environment. -/
def genvOk : GEnv := { getFault := false, statusFault := false }

/-- Concrete sample: the empty store (resource physically deleted). -/
def emptyStore : Store := { resource := none }

/-- Concrete sample: the empty guestbook store. -/
def emptyGStore : GStore := { resource := none }

/-- The `Ready=True` condition that the ready branch of `reconcileNormal`
builds for a resource of the given generation. -/
def readyCondition (gen : Nat) : Condition :=
  { condType := TypeReady
    status := "True"
    reason := "ReconciliationSucceeded"
    message := "Resource reconciled successfully"
    observedGeneration := gen }

/-- The `Degraded=True` condition that the not-ready branch of
`reconcileNormal` builds for a resource of the given generation. -/
def degradedCondition (gen : Nat) : Condition :=
  { condType := TypeDegraded
    status := "True"
    reason := "NotReady"
    message := "Resource is not ready"
    observedGeneration := gen }

/-- The resource as `updateStatus` writes it in the ready branch. -/
def readyUpdated (r : MyResource) : MyResource :=
  { r with
    status :=
      { conditions := setStatusCondition r.status.conditions (readyCondition r.generation)
        observedGeneration := r.generation } }

/-- The resource as `updateStatus` writes it in the not-ready branch. -/
def degradedUpdated (r : MyResource) : MyResource :=
  { r with
    status :=
      { conditions := setStatusCondition r.status.conditions (degradedCondition r.generation)
        observedGeneration := r.generation } }

/-- The `Available=True` condition the guestbook controller builds for a
guestbook of the given generation. -/
def availableCondition (gen : Nat) : Condition :=
  { condType := "Available"
    status := "True"
    reason := "Reconciled"
    message := "Guestbook spec reconciled"
    observedGeneration := gen }

/-- The guestbook as the controller writes it through the status path. -/
def availableUpdated (g : Guestbook) : Guestbook :=
  { g with
    status :=
      { conditions := setStatusCondition g.status.conditions (availableCondition g.generation) } }

/-- Overwriting the non-key fields of a condition with those of a condition of
the same type yields that condition. -/
theorem setStatusCondition_replace_eq (h c : Condition) (hb : h.condType = c.condType) :
    ({ h with
       status := c.status
       reason := c.reason
       message := c.message
       observedGeneration := c.observedGeneration } : Condition) = c := by
  cases h; cases c; simp_all

/-- After `setStatusCondition`, looking up the new condition's type finds
exactly the new condition. -/
theorem setStatusCondition_find_self (l : List Condition) (c : Condition) :
    findStatusCondition (setStatusCondition l c) c.condType = some c := by
  induction l with
  | nil => simp [setStatusCondition, findStatusCondition]
  | cons h t ih =>
    by_cases hb : h.condType = c.condType
    · simp [setStatusCondition, findStatusCondition, hb,
            setStatusCondition_replace_eq h c hb]
    · simp only [setStatusCondition, findStatusCondition] at ih ⊢
      simp [hb, ih]

/-- Setting the same condition twice is the same as setting it once. -/
theorem setStatusCondition_idem (l : List Condition) (c : Condition) :
    setStatusCondition (setStatusCondition l c) c = setStatusCondition l c := by
  induction l with
  | nil => simp [setStatusCondition]
  | cons h t ih =>
    by_cases hb : h.condType = c.condType
    · simp [setStatusCondition, hb]
    · simp [setStatusCondition, hb, ih]

/-- The type list after `setStatusCondition`: unchanged when the type was
already present, the type appended at the end otherwise. -/
theorem setStatusCondition_map_condType (l : List Condition) (c : Condition) :
    (setStatusCondition l c).map Condition.condType =
      if c.condType ∈ l.map Condition.condType then l.map Condition.condType
      else l.map Condition.condType ++ [c.condType] := by
  induction l with
  | nil => simp [setStatusCondition]
  | cons h t ih =>
    by_cases hb : h.condType = c.condType
    · simp [setStatusCondition, hb]
    · have hb' : ¬ c.condType = h.condType := fun hx => hb hx.symm
      by_cases hm : c.condType ∈ t.map Condition.condType
      · simp [setStatusCondition, hb, ih, hm, hb']
      · simp [setStatusCondition, hb, ih, hm, hb']

/-- `setStatusCondition` preserves distinctness of condition types. -/
theorem setStatusCondition_nodup (l : List Condition) (c : Condition)
    (hl : (l.map Condition.condType).Nodup) :
    ((setStatusCondition l c).map Condition.condType).Nodup := by
  rw [setStatusCondition_map_condType]
  by_cases hm : c.condType ∈ l.map Condition.condType
  · simpa [hm] using hl
  · simp only [hm, if_false]
    exact hl.append (List.nodup_singleton _) (List.disjoint_singleton.2 hm)

/-- Any sequence of `setStatusCondition` operations starting from a list with
distinct condition types keeps the types distinct. -/
theorem foldl_setStatusCondition_nodup (ops : List Condition) (l : List Condition)
    (hl : (l.map Condition.condType).Nodup) :
    ((ops.foldl setStatusCondition l).map Condition.condType).Nodup := by
  induction ops generalizing l with
  | nil => simpa using hl
  | cons c rest ih => exact ih _ (setStatusCondition_nodup l c hl)

/-- `addFinalizer` makes the finalizer present. -/
theorem containsFinalizer_addFinalizer (l : List String) (f : String) :
    containsFinalizer (addFinalizer l f) f = true := by
  simp only [containsFinalizer, addFinalizer]
  by_cases h : f ∈ l <;> simp [h]

/-- `removeFinalizer` makes the finalizer absent. -/
theorem containsFinalizer_removeFinalizer (l : List String) (f : String) :
    containsFinalizer (removeFinalizer l f) f = false := by
  simp [containsFinalizer, removeFinalizer]

/-- Full outcome of the finalizer-attach branch of `Reconcile`. -/
theorem myres_attach_eq (env : Env) (s : Store) (r : MyResource)
    (hg : env.getFault = false) (hu : env.updateFault = false)
    (hres : s.resource = some r) (hdel : r.deletionTimestamp = none)
    (hfin : containsFinalizer r.finalizers myFinalizerName = false) :
    MyResourceReconciler.Reconcile env s =
      { store := { resource := some { r with finalizers := addFinalizer r.finalizers myFinalizerName } }
        effects := [Effect.specWrite { r with finalizers := addFinalizer r.finalizers myFinalizerName }]
        result := { requeue := true, requeueAfter := 0 }
        err := none } := by
  simp [MyResourceReconciler.Reconcile, Store.applyUpdate, hg, hu, hres, hdel, hfin]

/-- Full outcome of the ready branch of `reconcileNormal` reached through
`Reconcile`. -/
theorem myres_ready_eq (env : Env) (s : Store) (r : MyResource)
    (hg : env.getFault = false) (hst : env.statusFault = false)
    (hready : env.isReady = true) (hres : s.resource = some r)
    (hdel : r.deletionTimestamp = none)
    (hfin : containsFinalizer r.finalizers myFinalizerName = true) :
    MyResourceReconciler.Reconcile env s =
      { store := { resource := some (readyUpdated r) }
        effects := [Effect.statusWrite (readyUpdated r),
                    Effect.event "Normal" "Ready" "Resource is ready"]
        result := { requeue := false, requeueAfter := 5 * 60 }
        err := none } := by
  simp [MyResourceReconciler.Reconcile, MyResourceReconciler.reconcileNormal,
        MyResourceReconciler.updateStatus, Store.applyStatusUpdate,
        readyUpdated, readyCondition, hg, hst, hready, hres, hdel, hfin]

/-- Full outcome of the not-ready branch of `reconcileNormal` reached through
`Reconcile`. -/
theorem myres_degraded_eq (env : Env) (s : Store) (r : MyResource)
    (hg : env.getFault = false) (hst : env.statusFault = false)
    (hready : env.isReady = false) (hres : s.resource = some r)
    (hdel : r.deletionTimestamp = none)
    (hfin : containsFinalizer r.finalizers myFinalizerName = true) :
    MyResourceReconciler.Reconcile env s =
      { store := { resource := some (degradedUpdated r) }
        effects := [Effect.statusWrite (degradedUpdated r),
                    Effect.event "Warning" "NotReady" "Resource is not ready"]
        result := { requeue := false, requeueAfter := 30 }
        err := none } := by
  simp [MyResourceReconciler.Reconcile, MyResourceReconciler.reconcileNormal,
        MyResourceReconciler.updateStatus, Store.applyStatusUpdate,
        degradedUpdated, degradedCondition, hg, hst, hready, hres, hdel, hfin]

/-- Full outcome of `reconcileDelete` when cleanup fails. -/
theorem myres_delete_fail_eq (env : Env) (s : Store) (r : MyResource)
    (hg : env.getFault = false) (hc : env.cleanupFails = true)
    (hres : s.resource = some r) (hdel : r.deletionTimestamp.isSome = true)
    (hfin : containsFinalizer r.finalizers myFinalizerName = true) :
    MyResourceReconciler.Reconcile env s =
      { store := s, effects := [], result := Result.empty, err := some GoErr.other } := by
  simp [MyResourceReconciler.Reconcile, MyResourceReconciler.reconcileDelete,
        hg, hc, hres, hdel, hfin]

/-- Full outcome of `reconcileDelete` when cleanup and the finalizer-removing
update succeed. -/
theorem myres_delete_ok_eq (env : Env) (s : Store) (r : MyResource)
    (hg : env.getFault = false) (hc : env.cleanupFails = false)
    (hu : env.updateFault = false)
    (hres : s.resource = some r) (hdel : r.deletionTimestamp.isSome = true)
    (hfin : containsFinalizer r.finalizers myFinalizerName = true) :
    MyResourceReconciler.Reconcile env s =
      { store := { resource := some { r with finalizers := removeFinalizer r.finalizers myFinalizerName } }
        effects := [Effect.specWrite { r with finalizers := removeFinalizer r.finalizers myFinalizerName },
                    Effect.event "Normal" "Deleted" "Resource cleanup completed"]
        result := Result.empty
        err := none } := by
  simp [MyResourceReconciler.Reconcile, MyResourceReconciler.reconcileDelete,
        Store.applyUpdate, hg, hc, hu, hres, hdel, hfin]

/-- The written ready resource is a fixed point of the ready update. -/
theorem readyUpdated_idem (r : MyResource) :
    readyUpdated (readyUpdated r) = readyUpdated r := by
  simp [readyUpdated, setStatusCondition_idem]

/-- The written degraded resource is a fixed point of the degraded update. -/
theorem degradedUpdated_idem (r : MyResource) :
    degradedUpdated (degradedUpdated r) = degradedUpdated r := by
  simp [degradedUpdated, setStatusCondition_idem]

/-- After any `MyResource` reconcile invocation on a present resource, the
stored record is the original, the original with the finalizer attached, the
original with the finalizer removed, or the original with only the status
replaced by the ready/degraded status. -/
theorem myres_store_cases (env : Env) (s : Store) (r : MyResource)
    (hres : s.resource = some r) :
    (MyResourceReconciler.Reconcile env s).store.resource = some r ∨
    (MyResourceReconciler.Reconcile env s).store.resource =
      some { r with finalizers := addFinalizer r.finalizers myFinalizerName } ∨
    (MyResourceReconciler.Reconcile env s).store.resource =
      some { r with finalizers := removeFinalizer r.finalizers myFinalizerName } ∨
    (MyResourceReconciler.Reconcile env s).store.resource = some (readyUpdated r) ∨
    (MyResourceReconciler.Reconcile env s).store.resource = some (degradedUpdated r) := by
  cases hg : env.getFault with
  | true => left; simp [MyResourceReconciler.Reconcile, hg, hres]
  | false =>
    cases hdt : r.deletionTimestamp with
    | some t =>
      cases hfin : containsFinalizer r.finalizers myFinalizerName with
      | false =>
        left
        simp [MyResourceReconciler.Reconcile, MyResourceReconciler.reconcileDelete,
              hg, hres, hdt, hfin]
      | true =>
        cases hc : env.cleanupFails with
        | true =>
          left
          simp [MyResourceReconciler.Reconcile, MyResourceReconciler.reconcileDelete,
                hg, hres, hdt, hfin, hc]
        | false =>
          cases hu : env.updateFault with
          | true =>
            left
            simp [MyResourceReconciler.Reconcile, MyResourceReconciler.reconcileDelete,
                  hg, hres, hdt, hfin, hc, hu]
          | false =>
            right; right; left
            simp [MyResourceReconciler.Reconcile, MyResourceReconciler.reconcileDelete,
                  Store.applyUpdate, hg, hres, hdt, hfin, hc, hu]
    | none =>
      cases hfin : containsFinalizer r.finalizers myFinalizerName with
      | false =>
        cases hu : env.updateFault with
        | true =>
          left
          simp [MyResourceReconciler.Reconcile, hg, hres, hdt, hfin, hu]
        | false =>
          right; left
          simp [MyResourceReconciler.Reconcile, Store.applyUpdate, hg, hres, hdt, hfin, hu]
      | true =>
        cases hready : env.isReady with
        | true =>
          cases hst : env.statusFault with
          | true =>
            left
            simp [MyResourceReconciler.Reconcile, MyResourceReconciler.reconcileNormal,
                  MyResourceReconciler.updateStatus, hg, hres, hdt, hfin, hready, hst]
          | false =>
            right; right; right; left
            simp [MyResourceReconciler.Reconcile, MyResourceReconciler.reconcileNormal,
                  MyResourceReconciler.updateStatus, Store.applyStatusUpdate,
                  readyUpdated, readyCondition, hg, hres, hdt, hfin, hready, hst]
        | false =>
          cases hst : env.statusFault with
          | true =>
            left
            simp [MyResourceReconciler.Reconcile, MyResourceReconciler.reconcileNormal,
                  MyResourceReconciler.updateStatus, hg, hres, hdt, hfin, hready, hst]
          | false =>
            right; right; right; right
            simp [MyResourceReconciler.Reconcile, MyResourceReconciler.reconcileNormal,
                  MyResourceReconciler.updateStatus, Store.applyStatusUpdate,
                  degradedUpdated, degradedCondition, hg, hres, hdt, hfin, hready, hst]

/-- Guestbook outcome when no `Available` condition exists yet. -/
theorem guestbook_write_none_eq (env : GEnv) (s : GStore) (g : Guestbook)
    (hg : env.getFault = false) (hsf : env.statusFault = false)
    (hres : s.resource = some g)
    (hav : findStatusCondition g.status.conditions "Available" = none) :
    GuestbookReconciler.Reconcile env s =
      { store := { resource := some (availableUpdated g) }
        effects := [GEffect.statusWrite (availableUpdated g)]
        result := Result.empty
        err := none } := by
  simp [GuestbookReconciler.Reconcile, availableUpdated, availableCondition,
        hg, hsf, hres, hav]

/-- Guestbook outcome when the `Available` condition is stale or not `True`. -/
theorem guestbook_write_stale_eq (env : GEnv) (s : GStore) (g : Guestbook)
    (c : Condition)
    (hg : env.getFault = false) (hsf : env.statusFault = false)
    (hres : s.resource = some g)
    (hav : findStatusCondition g.status.conditions "Available" = some c)
    (hb : (c.observedGeneration != g.generation || c.status != "True") = true) :
    GuestbookReconciler.Reconcile env s =
      { store := { resource := some (availableUpdated g) }
        effects := [GEffect.statusWrite (availableUpdated g)]
        result := Result.empty
        err := none } := by
  simp [GuestbookReconciler.Reconcile, availableUpdated, availableCondition,
        hg, hsf, hres, hav, hb]

/-- Guestbook outcome when the `Available` condition is already current. -/
theorem guestbook_skip_eq (env : GEnv) (s : GStore) (g : Guestbook)
    (c : Condition)
    (hg : env.getFault = false) (hres : s.resource = some g)
    (hav : findStatusCondition g.status.conditions "Available" = some c)
    (hb : (c.observedGeneration != g.generation || c.status != "True") = false) :
    GuestbookReconciler.Reconcile env s =
      { store := s, effects := [], result := Result.empty, err := none } := by
  simp [GuestbookReconciler.Reconcile, hg, hres, hav, hb]

/-- Every guestbook reconcile invocation returns the empty `ctrl.Result{}`. -/
theorem guestbook_result_empty (env : GEnv) (s : GStore) :
    (GuestbookReconciler.Reconcile env s).result = Result.empty := by
  cases hg : env.getFault with
  | true => simp [GuestbookReconciler.Reconcile, hg]
  | false =>
    cases hres : s.resource with
    | none => simp [GuestbookReconciler.Reconcile, hg, hres]
    | some g =>
      cases hav : findStatusCondition g.status.conditions "Available" with
      | none =>
        cases hsf : env.statusFault with
        | true => simp [GuestbookReconciler.Reconcile, hg, hres, hav, hsf]
        | false => rw [guestbook_write_none_eq env s g hg hsf hres hav]
      | some c =>
        cases hb : (c.observedGeneration != g.generation || c.status != "True") with
        | false => rw [guestbook_skip_eq env s g c hg hres hav hb]
        | true =>
          cases hsf : env.statusFault with
          | true => simp [GuestbookReconciler.Reconcile, hg, hres, hav, hb, hsf]
          | false => rw [guestbook_write_stale_eq env s g c hg hsf hres hav hb]

/-- After any guestbook invocation on a present guestbook, the stored record is
either unchanged or the original with only the status replaced. -/
theorem guestbook_store_cases (env : GEnv) (s : GStore) (g : Guestbook)
    (hres : s.resource = some g) :
    (GuestbookReconciler.Reconcile env s).store.resource = some g ∨
    (GuestbookReconciler.Reconcile env s).store.resource = some (availableUpdated g) := by
  cases hg : env.getFault with
  | true => left; simp [GuestbookReconciler.Reconcile, hg, hres]
  | false =>
    cases hav : findStatusCondition g.status.conditions "Available" with
    | none =>
      cases hsf : env.statusFault with
      | true => left; simp [GuestbookReconciler.Reconcile, hg, hres, hav, hsf]
      | false => right; rw [guestbook_write_none_eq env s g hg hsf hres hav]
    | some c =>
      cases hb : (c.observedGeneration != g.generation || c.status != "True") with
      | false =>
        left
        rw [guestbook_skip_eq env s g c hg hres hav hb]
        exact hres
      | true =>
        cases hsf : env.statusFault with
        | true => left; simp [GuestbookReconciler.Reconcile, hg, hres, hav, hb, hsf]
        | false => right; rw [guestbook_write_stale_eq env s g c hg hsf hres hav hb]

/-- A fault-free guestbook invocation immediately after another one over the
same unchanged state performs no write at all. -/
theorem guestbook_second_call (env : GEnv) (s : GStore)
    (hg : env.getFault = false) (hsf : env.statusFault = false) :
    GuestbookReconciler.Reconcile env ((GuestbookReconciler.Reconcile env s).store) =
      { store := (GuestbookReconciler.Reconcile env s).store
        effects := []
        result := Result.empty
        err := none } := by
  cases hres : s.resource with
  | none =>
    have h1 : GuestbookReconciler.Reconcile env s =
        { store := s, effects := [], result := Result.empty, err := none } := by
      simp [GuestbookReconciler.Reconcile, hg, hres]
    rw [h1]
    simp [GuestbookReconciler.Reconcile, hg, hres]
  | some g =>
    have hfind : findStatusCondition (availableUpdated g).status.conditions "Available" =
        some (availableCondition g.generation) :=
      setStatusCondition_find_self g.status.conditions (availableCondition g.generation)
    have hfresh : ((availableCondition g.generation).observedGeneration != (availableUpdated g).generation ||
        (availableCondition g.generation).status != "True") = false := by
      simp [availableCondition, availableUpdated]
    cases hav : findStatusCondition g.status.conditions "Available" with
    | none =>
      cases hsf2 : env.statusFault with
      | true => exact absurd hsf2 (by simp [hsf])
      | false =>
        rw [guestbook_write_none_eq env s g hg hsf hres hav]
        exact guestbook_skip_eq env _ (availableUpdated g) (availableCondition g.generation)
          hg rfl hfind hfresh
    | some c =>
      cases hb : (c.observedGeneration != g.generation || c.status != "True") with
      | false =>
        rw [guestbook_skip_eq env s g c hg hres hav hb]
        exact guestbook_skip_eq env s g c hg hres hav hb
      | true =>
        rw [guestbook_write_stale_eq env s g c hg hsf hres hav hb]
        exact guestbook_skip_eq env _ (availableUpdated g) (availableCondition g.generation)
          hg rfl hfind hfresh

/-- C1, counterexample: on a found, non-deleting resource carrying the
finalizer whose readiness check fails, the reconciler does record a `Degraded`
condition and returns no error, but the returned result carries a 30-second
requeue-after — not the zero requeue-after the claim states. -/
theorem c1_counterexample :
    (MyResourceReconciler.Reconcile envNotReady steadyStore).store.resource.map
        (fun r2 => findStatusCondition r2.status.conditions TypeDegraded) =
      some (some (degradedCondition 1)) ∧
    (MyResourceReconciler.Reconcile envNotReady steadyStore).err = none ∧
    (MyResourceReconciler.Reconcile envNotReady steadyStore).result.requeueAfter = 30 ∧
    (MyResourceReconciler.Reconcile envNotReady steadyStore).result.requeueAfter ≠ 0 := by
  decide

/-- C1 (amended): when the resource is found, not being deleted, carries the
finalizer and the readiness check fails, the reconciler records a `Degraded`
condition and returns a 30-second requeue-after with no error (it retries on
its own rather than waiting for a spec change). -/
theorem c1_degraded_requeues_after_30s (env : Env) (s : Store) (r : MyResource)
    (hg : env.getFault = false) (hst : env.statusFault = false)
    (hready : env.isReady = false) (hres : s.resource = some r)
    (hdel : r.deletionTimestamp = none)
    (hfin : containsFinalizer r.finalizers myFinalizerName = true) :
    ∃ r2 : MyResource,
      (MyResourceReconciler.Reconcile env s).store.resource = some r2 ∧
      findStatusCondition r2.status.conditions TypeDegraded =
        some (degradedCondition r.generation) ∧
      (MyResourceReconciler.Reconcile env s).result = { requeue := false, requeueAfter := 30 } ∧
      (MyResourceReconciler.Reconcile env s).err = none := by
  rw [myres_degraded_eq env s r hg hst hready hres hdel hfin]
  refine ⟨degradedUpdated r, rfl, ?_, rfl, rfl⟩
  simpa [degradedUpdated] using
    setStatusCondition_find_self r.status.conditions (degradedCondition r.generation)

/-- C1 witness: the amended degraded-branch behaviour at a concrete state. -/
theorem c1_witness :
    ∃ r2 : MyResource,
      (MyResourceReconciler.Reconcile envNotReady steadyStore).store.resource = some r2 ∧
      findStatusCondition r2.status.conditions TypeDegraded =
        some (degradedCondition steadyResource.generation) ∧
      (MyResourceReconciler.Reconcile envNotReady steadyStore).result =
        { requeue := false, requeueAfter := 30 } ∧
      (MyResourceReconciler.Reconcile envNotReady steadyStore).err = none :=
  c1_degraded_requeues_after_30s envNotReady steadyStore steadyResource
    rfl rfl rfl rfl rfl (by decide)

/-- C2: on a deleting resource carrying the finalizer, every invocation whose
cleanup fails returns the error and leaves the store — finalizer included —
untouched; any number N of consecutive failing invocations leaves the store
fixed with the finalizer still present; and an invocation whose cleanup and
update succeed removes the finalizer and returns no error. -/
theorem c2_no_premature_finalizer_removal (s : Store) (r : MyResource)
    (hres : s.resource = some r) (hdel : r.deletionTimestamp.isSome = true)
    (hfin : containsFinalizer r.finalizers myFinalizerName = true) :
    (∀ env : Env, env.getFault = false → env.cleanupFails = true →
        MyResourceReconciler.Reconcile env s =
          { store := s, effects := [], result := Result.empty, err := some GoErr.other }) ∧
    (∀ (env : Env) (N : Nat), env.getFault = false → env.cleanupFails = true →
        (fun st => (MyResourceReconciler.Reconcile env st).store)^[N] s = s ∧
        ((fun st => (MyResourceReconciler.Reconcile env st).store)^[N] s).resource = some r) ∧
    (∀ env : Env, env.getFault = false → env.cleanupFails = false →
        env.updateFault = false →
        ∃ r2 : MyResource,
          (MyResourceReconciler.Reconcile env s).store.resource = some r2 ∧
          containsFinalizer r2.finalizers myFinalizerName = false ∧
          (MyResourceReconciler.Reconcile env s).err = none) := by
  refine ⟨?_, ?_, ?_⟩
  · intro env hg hc
    exact myres_delete_fail_eq env s r hg hc hres hdel hfin
  · intro env N hg hc
    have hfix : (fun st => (MyResourceReconciler.Reconcile env st).store) s = s := by
      show (MyResourceReconciler.Reconcile env s).store = s
      rw [myres_delete_fail_eq env s r hg hc hres hdel hfin]
    refine ⟨Function.iterate_fixed hfix N, ?_⟩
    rw [Function.iterate_fixed hfix N]
    exact hres
  · intro env hg hc hu
    rw [myres_delete_ok_eq env s r hg hc hu hres hdel hfin]
    exact ⟨_, rfl, containsFinalizer_removeFinalizer _ _, rfl⟩

/-- C2 witness: three consecutive failing cleanups leave the deleting store
fixed, one failing invocation returns the error with the store untouched, and
a succeeding invocation removes the finalizer. -/
theorem c2_witness :
    ((fun st => (MyResourceReconciler.Reconcile envCleanupFail st).store)^[3] deletingStore =
        deletingStore ∧
      ((fun st => (MyResourceReconciler.Reconcile envCleanupFail st).store)^[3]
          deletingStore).resource = some deletingResource) ∧
    MyResourceReconciler.Reconcile envCleanupFail deletingStore =
      { store := deletingStore, effects := [], result := Result.empty,
        err := some GoErr.other } ∧
    (∃ r2 : MyResource,
      (MyResourceReconciler.Reconcile envOk deletingStore).store.resource = some r2 ∧
      containsFinalizer r2.finalizers myFinalizerName = false ∧
      (MyResourceReconciler.Reconcile envOk deletingStore).err = none) :=
  ⟨(c2_no_premature_finalizer_removal deletingStore deletingResource rfl rfl
      (by decide)).2.1 envCleanupFail 3 rfl rfl,
   (c2_no_premature_finalizer_removal deletingStore deletingResource rfl rfl
      (by decide)).1 envCleanupFail rfl rfl,
   (c2_no_premature_finalizer_removal deletingStore deletingResource rfl rfl
      (by decide)).2.2 envOk rfl rfl rfl⟩

/-- C4: on a found resource with zero deletion timestamp and no finalizer, a
fault-free invocation attaches the finalizer, persists it through the
spec/metadata path as its only side effect, and returns an immediate requeue
with no error — no normal reconciliation and no other side effect happens. -/
theorem c4_finalizer_attach_first (env : Env) (s : Store) (r : MyResource)
    (hg : env.getFault = false) (hu : env.updateFault = false)
    (hres : s.resource = some r) (hdel : r.deletionTimestamp = none)
    (hfin : containsFinalizer r.finalizers myFinalizerName = false) :
    MyResourceReconciler.Reconcile env s =
      { store := { resource := some { r with finalizers := addFinalizer r.finalizers myFinalizerName } }
        effects := [Effect.specWrite { r with finalizers := addFinalizer r.finalizers myFinalizerName }]
        result := { requeue := true, requeueAfter := 0 }
        err := none } ∧
    containsFinalizer (addFinalizer r.finalizers myFinalizerName) myFinalizerName = true :=
  ⟨myres_attach_eq env s r hg hu hres hdel hfin,
   containsFinalizer_addFinalizer r.finalizers myFinalizerName⟩

/-- C4 witness: the finalizer-attach branch at a concrete fresh resource. -/
theorem c4_witness :
    MyResourceReconciler.Reconcile envOk freshStore =
      { store := { resource := some { freshResource with
                    finalizers := addFinalizer freshResource.finalizers myFinalizerName } }
        effects := [Effect.specWrite { freshResource with
                    finalizers := addFinalizer freshResource.finalizers myFinalizerName }]
        result := { requeue := true, requeueAfter := 0 }
        err := none } ∧
    containsFinalizer (addFinalizer freshResource.finalizers myFinalizerName)
      myFinalizerName = true :=
  c4_finalizer_attach_first envOk freshStore freshResource rfl rfl rfl rfl (by decide)

/-- C5: in both reconcilers, a not-found fetch yields success with no action
and an empty result, and any other fetch failure is returned to the caller
with the store untouched. -/
theorem c5_fetch_error_handling :
    (∀ (env : Env) (s : Store), env.getFault = false → s.resource = none →
        MyResourceReconciler.Reconcile env s =
          { store := s, effects := [], result := Result.empty, err := none }) ∧
    (∀ (env : Env) (s : Store), env.getFault = true →
        MyResourceReconciler.Reconcile env s =
          { store := s, effects := [], result := Result.empty, err := some GoErr.other }) ∧
    (∀ (env : GEnv) (s : GStore), env.getFault = false → s.resource = none →
        GuestbookReconciler.Reconcile env s =
          { store := s, effects := [], result := Result.empty, err := none }) ∧
    (∀ (env : GEnv) (s : GStore), env.getFault = true →
        GuestbookReconciler.Reconcile env s =
          { store := s, effects := [], result := Result.empty, err := some GoErr.other }) := by
  refine ⟨?_, ?_, ?_, ?_⟩
  · intro env s hg hn
    simp [MyResourceReconciler.Reconcile, hg, hn]
  · intro env s hg
    simp [MyResourceReconciler.Reconcile, hg]
  · intro env s hg hn
    simp [GuestbookReconciler.Reconcile, hg, hn]
  · intro env s hg
    simp [GuestbookReconciler.Reconcile, hg]

/-- C5 witness: both reconcilers on an already-deleted key return success and
take no action. -/
theorem c5_witness :
    MyResourceReconciler.Reconcile envOk emptyStore =
      { store := emptyStore, effects := [], result := Result.empty, err := none } ∧
    GuestbookReconciler.Reconcile genvOk emptyGStore =
      { store := emptyGStore, effects := [], result := Result.empty, err := none } :=
  ⟨c5_fetch_error_handling.1 envOk emptyStore rfl rfl,
   c5_fetch_error_handling.2.2.1 genvOk emptyGStore rfl rfl⟩

/-- C6: whichever branch of the normal reconciliation performs the status
write (Ready or Degraded), the persisted status carries
`observedGeneration` equal to the resource's generation at the time of the
call, and the stored generation itself is unchanged. -/
theorem c6_observed_generation_tracking (env : Env) (s : Store) (r : MyResource)
    (hg : env.getFault = false) (hst : env.statusFault = false)
    (hres : s.resource = some r) (hdel : r.deletionTimestamp = none)
    (hfin : containsFinalizer r.finalizers myFinalizerName = true) :
    ∃ r2 : MyResource,
      (MyResourceReconciler.Reconcile env s).store.resource = some r2 ∧
      r2.status.observedGeneration = r.generation ∧
      r2.generation = r.generation := by
  cases hready : env.isReady with
  | true =>
    rw [myres_ready_eq env s r hg hst hready hres hdel hfin]
    exact ⟨readyUpdated r, rfl, rfl, rfl⟩
  | false =>
    rw [myres_degraded_eq env s r hg hst hready hres hdel hfin]
    exact ⟨degradedUpdated r, rfl, rfl, rfl⟩

/-- C6 witness: generation tracking at a concrete successful reconciliation. -/
theorem c6_witness :
    ∃ r2 : MyResource,
      (MyResourceReconciler.Reconcile envOk steadyStore).store.resource = some r2 ∧
      r2.status.observedGeneration = steadyResource.generation ∧
      r2.generation = steadyResource.generation :=
  c6_observed_generation_tracking envOk steadyStore steadyResource
    rfl rfl rfl rfl (by decide)

/-- C8: when the resource is found, not being deleted, carries the finalizer
and the readiness check succeeds, the reconciler stores a condition of type
`Ready` with status `True`, and returns a requeue-after of exactly 5 minutes
(300 seconds in this model) with no error. -/
theorem c8_ready_requeues_after_5min (env : Env) (s : Store) (r : MyResource)
    (hg : env.getFault = false) (hst : env.statusFault = false)
    (hready : env.isReady = true) (hres : s.resource = some r)
    (hdel : r.deletionTimestamp = none)
    (hfin : containsFinalizer r.finalizers myFinalizerName = true) :
    ∃ r2 : MyResource,
      (MyResourceReconciler.Reconcile env s).store.resource = some r2 ∧
      findStatusCondition r2.status.conditions TypeReady =
        some (readyCondition r.generation) ∧
      (readyCondition r.generation).condType = TypeReady ∧
      (readyCondition r.generation).status = "True" ∧
      (MyResourceReconciler.Reconcile env s).result =
        { requeue := false, requeueAfter := 5 * 60 } ∧
      (MyResourceReconciler.Reconcile env s).err = none := by
  rw [myres_ready_eq env s r hg hst hready hres hdel hfin]
  refine ⟨readyUpdated r, rfl, ?_, rfl, rfl, rfl, rfl⟩
  simpa [readyUpdated] using
    setStatusCondition_find_self r.status.conditions (readyCondition r.generation)

/-- C8 witness: the ready branch at a concrete steady resource. -/
theorem c8_witness :
    ∃ r2 : MyResource,
      (MyResourceReconciler.Reconcile envOk steadyStore).store.resource = some r2 ∧
      findStatusCondition r2.status.conditions TypeReady =
        some (readyCondition steadyResource.generation) ∧
      (readyCondition steadyResource.generation).condType = TypeReady ∧
      (readyCondition steadyResource.generation).status = "True" ∧
      (MyResourceReconciler.Reconcile envOk steadyStore).result =
        { requeue := false, requeueAfter := 5 * 60 } ∧
      (MyResourceReconciler.Reconcile envOk steadyStore).err = none :=
  c8_ready_requeues_after_5min envOk steadyStore steadyResource
    rfl rfl rfl rfl rfl (by decide)

/-- C3, counterexample: a fault-free guestbook reconciliation of a guestbook
that lacks the finalizer succeeds, yet attaches no finalizer and requests no
requeue — so `GuestbookReconciler.Reconcile` does not implement the full
scaffold sequence the claim ascribes to every reconciliation loop. -/
theorem c3_counterexample :
    (GuestbookReconciler.Reconcile genvOk plainGStore).err = none ∧
    (GuestbookReconciler.Reconcile genvOk plainGStore).store.resource.map
      Guestbook.finalizers = some [] ∧
    (GuestbookReconciler.Reconcile genvOk plainGStore).result = Result.empty := by
  decide

/-- C3 (amended): `MyResourceReconciler.Reconcile` implements the full
scaffold sequence — it fetches, attaches the finalizer with an immediate
requeue when absent, and otherwise reconciles, updates the status with the
current generation and requeues (5 minutes or 30 seconds) —  while
`GuestbookReconciler.Reconcile` implements only fetch and a conditional
status-condition update: it always returns an empty result and never touches
the finalizer list. -/
theorem c3_scaffold_shape :
    (∀ (env : Env) (s : Store) (r : MyResource),
        env.getFault = false → env.updateFault = false → s.resource = some r →
        r.deletionTimestamp = none →
        containsFinalizer r.finalizers myFinalizerName = false →
        (MyResourceReconciler.Reconcile env s).result =
          { requeue := true, requeueAfter := 0 } ∧
        (MyResourceReconciler.Reconcile env s).store.resource.map
          (fun r2 => containsFinalizer r2.finalizers myFinalizerName) = some true) ∧
    (∀ (env : Env) (s : Store) (r : MyResource),
        env.getFault = false → env.statusFault = false → s.resource = some r →
        r.deletionTimestamp = none →
        containsFinalizer r.finalizers myFinalizerName = true →
        ∃ r2 : MyResource,
          (MyResourceReconciler.Reconcile env s).store.resource = some r2 ∧
          r2.status.observedGeneration = r.generation ∧
          ((MyResourceReconciler.Reconcile env s).result =
              { requeue := false, requeueAfter := 5 * 60 } ∨
            (MyResourceReconciler.Reconcile env s).result =
              { requeue := false, requeueAfter := 30 })) ∧
    (∀ (env : GEnv) (s : GStore),
        (GuestbookReconciler.Reconcile env s).result = Result.empty ∧
        ∀ (g g2 : Guestbook), s.resource = some g →
          (GuestbookReconciler.Reconcile env s).store.resource = some g2 →
          g2.finalizers = g.finalizers) := by
  refine ⟨?_, ?_, ?_⟩
  · intro env s r hg hu hres hdel hfin
    rw [myres_attach_eq env s r hg hu hres hdel hfin]
    exact ⟨rfl, by simp [containsFinalizer_addFinalizer]⟩
  · intro env s r hg hst hres hdel hfin
    cases hready : env.isReady with
    | true =>
      rw [myres_ready_eq env s r hg hst hready hres hdel hfin]
      exact ⟨readyUpdated r, rfl, rfl, Or.inl rfl⟩
    | false =>
      rw [myres_degraded_eq env s r hg hst hready hres hdel hfin]
      exact ⟨degradedUpdated r, rfl, rfl, Or.inr rfl⟩
  · intro env s
    refine ⟨guestbook_result_empty env s, ?_⟩
    intro g g2 hres hr2
    rcases guestbook_store_cases env s g hres with h | h
    · rw [h] at hr2
      cases Option.some.inj hr2
      rfl
    · rw [h] at hr2
      cases Option.some.inj hr2
      rfl

/-- C3 witness: the attach branch for a concrete fresh resource and the
empty-result guestbook invocation for a concrete guestbook. -/
theorem c3_witness :
    (MyResourceReconciler.Reconcile envOk freshStore).result =
      { requeue := true, requeueAfter := 0 } ∧
    (GuestbookReconciler.Reconcile genvOk plainGStore).result = Result.empty :=
  ⟨(c3_scaffold_shape.1 envOk freshStore freshResource rfl rfl rfl rfl (by decide)).1,
   (c3_scaffold_shape.2.2 genvOk plainGStore).1⟩

/-- C7, counterexample: immediately re-invoking `MyResourceReconciler` on the
unchanged converged state repeats the status write and the event — the second
call's side-effect list is non-empty, contradicting the claimed absence of
additional side effects. -/
theorem c7_counterexample :
    (MyResourceReconciler.Reconcile envOk
        ((MyResourceReconciler.Reconcile envOk steadyStore).store)).effects =
      [Effect.statusWrite (readyUpdated steadyResource),
       Effect.event "Normal" "Ready" "Resource is ready"] ∧
    (MyResourceReconciler.Reconcile envOk
        ((MyResourceReconciler.Reconcile envOk steadyStore).store)).effects ≠ [] := by
  decide

/-- C7 (amended): a second fault-free invocation on unchanged state yields an
identical outcome. For `MyResourceReconciler` the entire output — store,
result, error and even the effect list — equals the first call's, so the
store is unchanged and the status output identical, but the (identical)
status write and event are performed again on every call. For
`GuestbookReconciler`, whose status write is guarded, the second call
performs no write at all. -/
theorem c7_second_call_identical :
    (∀ (env : Env) (s : Store) (r : MyResource),
        env.getFault = false → env.statusFault = false → s.resource = some r →
        r.deletionTimestamp = none →
        containsFinalizer r.finalizers myFinalizerName = true →
        MyResourceReconciler.Reconcile env ((MyResourceReconciler.Reconcile env s).store) =
          MyResourceReconciler.Reconcile env s) ∧
    (∀ (env : GEnv) (s : GStore),
        env.getFault = false → env.statusFault = false →
        GuestbookReconciler.Reconcile env ((GuestbookReconciler.Reconcile env s).store) =
          { store := (GuestbookReconciler.Reconcile env s).store
            effects := []
            result := Result.empty
            err := none }) := by
  refine ⟨?_, ?_⟩
  · intro env s r hg hst hres hdel hfin
    cases hready : env.isReady with
    | true =>
      have hdel2 : (readyUpdated r).deletionTimestamp = none := by
        simpa [readyUpdated] using hdel
      have hfin2 : containsFinalizer (readyUpdated r).finalizers myFinalizerName = true := by
        simpa [readyUpdated] using hfin
      rw [myres_ready_eq env s r hg hst hready hres hdel hfin]
      rw [myres_ready_eq env _ (readyUpdated r) hg hst hready rfl hdel2 hfin2]
      rw [readyUpdated_idem]
    | false =>
      have hdel2 : (degradedUpdated r).deletionTimestamp = none := by
        simpa [degradedUpdated] using hdel
      have hfin2 : containsFinalizer (degradedUpdated r).finalizers myFinalizerName = true := by
        simpa [degradedUpdated] using hfin
      rw [myres_degraded_eq env s r hg hst hready hres hdel hfin]
      rw [myres_degraded_eq env _ (degradedUpdated r) hg hst hready rfl hdel2 hfin2]
      rw [degradedUpdated_idem]
  · intro env s hg hsf
    exact guestbook_second_call env s hg hsf

/-- C7 witness: second-call behaviour at concrete states for both
reconcilers. -/
theorem c7_witness :
    MyResourceReconciler.Reconcile envOk
        ((MyResourceReconciler.Reconcile envOk steadyStore).store) =
      MyResourceReconciler.Reconcile envOk steadyStore ∧
    GuestbookReconciler.Reconcile genvOk
        ((GuestbookReconciler.Reconcile genvOk plainGStore).store) =
      { store := (GuestbookReconciler.Reconcile genvOk plainGStore).store
        effects := []
        result := Result.empty
        err := none } :=
  ⟨c7_second_call_identical.1 envOk steadyStore steadyResource rfl rfl rfl rfl (by decide),
   c7_second_call_identical.2 genvOk plainGStore rfl rfl⟩

/-- C9: condition lists built by any sequence of set-condition operations from
the empty list have at most one entry per type, and setting a condition whose
type already occurs replaces that entry in place — the sequence of types, and
hence the order of first insertion, is unchanged, and the lookup at that type
yields exactly the new condition. -/
theorem c9_conditions_keyed_by_type :
    (∀ ops : List Condition,
        ((ops.foldl setStatusCondition []).map Condition.condType).Nodup) ∧
    (∀ (l : List Condition) (c : Condition),
        c.condType ∈ l.map Condition.condType →
          (setStatusCondition l c).map Condition.condType =
            l.map Condition.condType ∧
          findStatusCondition (setStatusCondition l c) c.condType = some c) := by
  refine ⟨?_, ?_⟩
  · intro ops
    exact foldl_setStatusCondition_nodup ops [] (by simp)
  · intro l c hm
    refine ⟨?_, setStatusCondition_find_self l c⟩
    rw [setStatusCondition_map_condType]
    simp [hm]

/-- C9 witness: distinct types after a concrete operation sequence, and
in-place replacement on a concrete two-entry list. -/
theorem c9_witness :
    ((([readyCondition 0, degradedCondition 1, readyCondition 2].foldl
          setStatusCondition []).map Condition.condType).Nodup) ∧
    ((setStatusCondition [readyCondition 0, degradedCondition 1]
          (readyCondition 2)).map Condition.condType =
        [readyCondition 0, degradedCondition 1].map Condition.condType ∧
      findStatusCondition
          (setStatusCondition [readyCondition 0, degradedCondition 1]
            (readyCondition 2))
          (readyCondition 2).condType = some (readyCondition 2)) :=
  ⟨c9_conditions_keyed_by_type.1 [readyCondition 0, degradedCondition 1, readyCondition 2],
   c9_conditions_keyed_by_type.2 [readyCondition 0, degradedCondition 1]
     (readyCondition 2) (by decide)⟩

/-- C10: neither reconciler ever modifies the stored spec: after any
invocation on a present resource the stored record keeps the original spec,
generation and deletion timestamp, and its finalizer list is the original one
or the original with the controller's finalizer added or removed; the
guestbook's finalizer list is always untouched. -/
theorem c10_spec_never_modified :
    (∀ (env : Env) (s : Store) (r : MyResource), s.resource = some r →
        ∀ r2 : MyResource,
          (MyResourceReconciler.Reconcile env s).store.resource = some r2 →
          r2.spec = r.spec ∧ r2.generation = r.generation ∧
          r2.deletionTimestamp = r.deletionTimestamp ∧
          (r2.finalizers = r.finalizers ∨
            r2.finalizers = addFinalizer r.finalizers myFinalizerName ∨
            r2.finalizers = removeFinalizer r.finalizers myFinalizerName)) ∧
    (∀ (env : GEnv) (s : GStore) (g : Guestbook), s.resource = some g →
        ∀ g2 : Guestbook,
          (GuestbookReconciler.Reconcile env s).store.resource = some g2 →
          g2.spec = g.spec ∧ g2.generation = g.generation ∧
          g2.finalizers = g.finalizers) := by
  refine ⟨?_, ?_⟩
  · intro env s r hres r2 hr2
    rcases myres_store_cases env s r hres with h | h | h | h | h <;>
      rw [h] at hr2 <;> cases Option.some.inj hr2
    · exact ⟨rfl, rfl, rfl, Or.inl rfl⟩
    · exact ⟨rfl, rfl, rfl, Or.inr (Or.inl rfl)⟩
    · exact ⟨rfl, rfl, rfl, Or.inr (Or.inr rfl)⟩
    · exact ⟨rfl, rfl, rfl, Or.inl rfl⟩
    · exact ⟨rfl, rfl, rfl, Or.inl rfl⟩
  · intro env s g hres g2 hg2
    rcases guestbook_store_cases env s g hres with h | h <;>
      rw [h] at hg2 <;> cases Option.some.inj hg2
    · exact ⟨rfl, rfl, rfl⟩
    · exact ⟨rfl, rfl, rfl⟩

/-- C10 witness: the frame property at concrete post-states of both
reconcilers. -/
theorem c10_witness :
    ((readyUpdated steadyResource).spec = steadyResource.spec ∧
      (readyUpdated steadyResource).generation = steadyResource.generation ∧
      (readyUpdated steadyResource).deletionTimestamp = steadyResource.deletionTimestamp ∧
      ((readyUpdated steadyResource).finalizers = steadyResource.finalizers ∨
        (readyUpdated steadyResource).finalizers =
          addFinalizer steadyResource.finalizers myFinalizerName ∨
        (readyUpdated steadyResource).finalizers =
          removeFinalizer steadyResource.finalizers myFinalizerName)) ∧
    ((availableUpdated plainGuestbook).spec = plainGuestbook.spec ∧
      (availableUpdated plainGuestbook).generation = plainGuestbook.generation ∧
      (availableUpdated plainGuestbook).finalizers = plainGuestbook.finalizers) :=
  ⟨c10_spec_never_modified.1 envOk steadyStore steadyResource rfl
      (readyUpdated steadyResource) (by decide),
   c10_spec_never_modified.2 genvOk plainGStore plainGuestbook rfl
      (availableUpdated plainGuestbook) (by decide)⟩

end KubeOperator
